import Mathlib

/-
Verification of the boids flocking simulation (TypeScript repository).

The embedding models the numeric code over the real numbers: the source
operates on IEEE-754 doubles through p5.Vector / the shared vector
utilities, and every claim under scrutiny is about the exact algebraic
structure of those computations, so vectors are pairs of reals and
square roots are Real.sqrt.

Source map:
  - vector utilities (magnitude, normalize, limit, distance)  -> vmag,
    normalize, limit, vdist (src/boids/utils.ts and the identical
    p5.Vector operations used by Boid);
  - class Boid (src/boids/Boid.ts)   -> structure Boid and the
    functions in namespace Boid; object mutation becomes returning an
    updated structure; the `id` field models JavaScript object identity
    (each `new Boid(...)` is a distinct reference), and the random unit
    velocity drawn by p5.Vector.random2D() in the constructor is passed
    in as an explicit parameter;
  - class Simulation (src/boids/Simulation.ts) -> structure Simulation
    and the functions in namespace Simulation;
  - the ControlPanel max-speed / boid-count setters
    (src/ui/ControlPanel.ts) -> setMaxSpeed, controlPanelSpawn.
-/

namespace Boids

/-- A 2D vector, as used by p5.Vector and the utils module: a pair of
coordinates (x, y). -/
abbrev Vec : Type := ℝ × ℝ

/-- Source utils.magnitude: sqrt(x*x + y*y). -/
noncomputable def vmag (v : Vec) : ℝ := Real.sqrt (v.1 * v.1 + v.2 * v.2)

/-- Source utils.normalize / p5.Vector.normalize: the zero vector stays
zero, otherwise divide both components by the magnitude. -/
noncomputable def normalize (v : Vec) : Vec :=
  if vmag v = 0 then (0, 0) else (v.1 / vmag v, v.2 / vmag v)

/-- Source utils.limit / the limit used by the Boid tests' mock vector:
if the magnitude exceeds max, rescale the normalized vector by max;
otherwise return the vector unchanged. -/
noncomputable def limit (v : Vec) (max : ℝ) : Vec :=
  if vmag v > max then ((normalize v).1 * max, (normalize v).2 * max) else v

/-- Source p5.Vector.dist(v1, v2) (also utils.distance): the magnitude of
the componentwise difference v2 - v1. -/
noncomputable def vdist (p q : Vec) : ℝ := vmag (q - p)

/-- Source p5.Vector.div(n): componentwise division by a scalar, guarded
to be a no-op on n = 0. -/
noncomputable def vdiv (v : Vec) (n : ℝ) : Vec :=
  if n = 0 then v else (v.1 / n, v.2 / n)

/-- Componentwise addition on pairs agrees with the Prod instance. -/
theorem vec_add (a b c d : ℝ) : ((a, b) : Vec) + (c, d) = (a + c, b + d) := rfl

/-- Componentwise subtraction on pairs agrees with the Prod instance. -/
theorem vec_sub (a b c d : ℝ) : ((a, b) : Vec) - (c, d) = (a - c, b - d) := rfl

/-- Componentwise scalar multiplication on pairs agrees with the Prod
instance. -/
theorem vec_smul (c a b : ℝ) : c • ((a, b) : Vec) = (c * a, c * b) := rfl

theorem vmag_nonneg (v : Vec) : 0 ≤ vmag v := Real.sqrt_nonneg _

theorem vmag_eq_zero_iff (v : Vec) : vmag v = 0 ↔ v = (0, 0) := by
  constructor
  · intro h
    have hsum : v.1 * v.1 + v.2 * v.2 ≤ 0 := Real.sqrt_eq_zero'.mp h
    have h1 : v.1 * v.1 = 0 ∧ v.2 * v.2 = 0 := by
      constructor <;> nlinarith [mul_self_nonneg v.1, mul_self_nonneg v.2]
    have hx : v.1 = 0 := by nlinarith [h1.1]
    have hy : v.2 = 0 := by nlinarith [h1.2]
    exact Prod.ext hx hy
  · intro h
    subst h
    simp [vmag]

theorem vmag_mul_self (v : Vec) : vmag v * vmag v = v.1 * v.1 + v.2 * v.2 :=
  Real.mul_self_sqrt (add_nonneg (mul_self_nonneg _) (mul_self_nonneg _))

/-- The magnitude of a normalized nonzero vector is 1. -/
theorem vmag_normalize {v : Vec} (hv : v ≠ (0, 0)) : vmag (normalize v) = 1 := by
  have hm : vmag v ≠ 0 := fun h => hv ((vmag_eq_zero_iff v).mp h)
  have hmm := vmag_mul_self v
  have key : (v.1 / vmag v) * (v.1 / vmag v) + (v.2 / vmag v) * (v.2 / vmag v)
      = (v.1 * v.1 + v.2 * v.2) / (vmag v * vmag v) := by ring
  rw [normalize, if_neg hm]
  calc vmag (v.1 / vmag v, v.2 / vmag v)
      = Real.sqrt ((v.1 / vmag v) * (v.1 / vmag v) + (v.2 / vmag v) * (v.2 / vmag v)) := rfl
    _ = Real.sqrt ((v.1 * v.1 + v.2 * v.2) / (vmag v * vmag v)) := by rw [key]
    _ = Real.sqrt 1 := by rw [← hmm, div_self (mul_ne_zero hm hm)]
    _ = 1 := Real.sqrt_one

/-- Scaling the components of a vector scales its magnitude by the
absolute value of the factor. -/
theorem vmag_scale (c : ℝ) (v : Vec) :
    vmag (c * v.1, c * v.2) = |c| * vmag v := by
  unfold vmag
  have h : c * v.1 * (c * v.1) + c * v.2 * (c * v.2)
      = (c * c) * (v.1 * v.1 + v.2 * v.2) := by ring
  rw [h, Real.sqrt_mul (mul_self_nonneg c), Real.sqrt_mul_self_eq_abs]

theorem vmag_smul (c : ℝ) (v : Vec) : vmag (c • v) = |c| * vmag v := by
  have : c • v = (c * v.1, c * v.2) := rfl
  rw [this, vmag_scale]

/-- The magnitude of limit v max never exceeds max when max is
nonnegative. -/
theorem vmag_limit_le {max : ℝ} (v : Vec) (hmax : 0 ≤ max) :
    vmag (limit v max) ≤ max := by
  unfold limit
  by_cases h : vmag v > max
  · rw [if_pos h]
    have hv : v ≠ (0, 0) := by
      intro hz
      rw [hz] at h
      have : vmag ((0, 0) : Vec) = 0 := by simp [vmag]
      rw [this] at h
      exact absurd h (not_lt.mpr hmax)
    have hn := vmag_normalize hv
    have : vmag ((normalize v).1 * max, (normalize v).2 * max)
        = |max| * vmag (normalize v) := by
      have hc : ((normalize v).1 * max, (normalize v).2 * max)
          = (max * (normalize v).1, max * (normalize v).2) := by
        rw [mul_comm ((normalize v).1) max, mul_comm ((normalize v).2) max]
      rw [hc, vmag_scale]
    rw [this, hn, mul_one, abs_of_nonneg hmax]
  · rw [if_neg h]
    exact not_lt.mp h

/-- One flocking agent, mirroring class Boid: kinematic state plus the
per-agent speed and force caps.  The `id` field stands for the object's
reference identity. -/
structure Boid where
  id : ℕ
  position : Vec
  velocity : Vec
  acceleration : Vec
  max_speed : ℝ
  max_force : ℝ

/-- Source Boid constructor: position (x, y), a random unit-direction
velocity (passed here as the parameter vel), zero acceleration,
max_speed 4 and max_force 0.2. -/
noncomputable def mkBoid (i : ℕ) (x y : ℝ) (vel : Vec) : Boid :=
  { id := i
    position := (x, y)
    velocity := vel
    acceleration := (0, 0)
    max_speed := 4
    max_force := 0.2 }

/-- Source Boid.applyForce: accumulate the force into the acceleration. -/
noncomputable def Boid.applyForce (b : Boid) (force : Vec) : Boid :=
  { b with acceleration := b.acceleration + force }

/-- Source Boid.update: clamp acceleration to max_force, add it to the
velocity, clamp the velocity to max_speed, add the velocity to the
position, and reset the acceleration to zero (mult by 0). -/
noncomputable def Boid.update (b : Boid) : Boid :=
  let acc := limit b.acceleration b.max_force
  let vel := limit (b.velocity + acc) b.max_speed
  { b with
    velocity := vel
    position := b.position + vel
    acceleration := (0, 0) }

/-- The neighbor test shared by all three steering rules in the source:
the other agent counts as a neighbor when its distance d from self
satisfies 0 < d < perception_radius (this excludes self and coincident
agents). -/
def isNeighbor (self : Boid) (r : ℝ) (other : Boid) : Prop :=
  0 < vdist self.position other.position ∧
    vdist self.position other.position < r

noncomputable instance (self : Boid) (r : ℝ) (other : Boid) :
    Decidable (isNeighbor self r other) := by
  unfold isNeighbor; infer_instance

/-- The accumulation loop shared by the three steering rules in the
source (for other of boids: if 0 < d < radius, accumulate a vector
contribution and bump the neighbor count). -/
noncomputable def neighborAccum (self : Boid) (r : ℝ) (f : Boid → Vec)
    (boids : List Boid) : Vec × ℕ :=
  boids.foldl
    (fun acc other =>
      if isNeighbor self r other then (acc.1 + f other, acc.2 + 1) else acc)
    ((0, 0), 0)

/-- Source Boid.separation: sum, over neighbors at distance d with
0 < d < radius, the normalized vector from the neighbor to self scaled
by 1/d; when the count is positive, average, normalize, scale to
max_speed, subtract the velocity, clamp to max_force; finally the steer
(in both branches) is multiplied by the force weight. -/
noncomputable def Boid.separation (self : Boid) (boids : List Boid)
    (perception_radius force_weight : ℝ) : Vec :=
  let acc := neighborAccum self perception_radius
    (fun other => (1 / vdist self.position other.position) •
      normalize (self.position - other.position)) boids
  let steer :=
    if 0 < acc.2 then
      limit (self.max_speed • normalize (vdiv acc.1 acc.2) - self.velocity)
        self.max_force
    else acc.1
  force_weight • steer

/-- Source Boid.alignment: average the velocities of neighbors; when the
count is positive, normalize, scale to max_speed, subtract the velocity,
clamp to max_force and multiply by the weight; otherwise return the zero
vector. -/
noncomputable def Boid.alignment (self : Boid) (boids : List Boid)
    (perception_radius force_weight : ℝ) : Vec :=
  let acc := neighborAccum self perception_radius (fun other => other.velocity)
    boids
  if 0 < acc.2 then
    force_weight •
      limit (self.max_speed • normalize (vdiv acc.1 acc.2) - self.velocity)
        self.max_force
  else (0, 0)

/-- Source Boid.seek (private helper of cohesion): desired direction to
the target normalized and scaled to max_speed, minus the velocity,
clamped to max_force, multiplied by the weight. -/
noncomputable def Boid.seek (self : Boid) (target : Vec) (force_weight : ℝ) :
    Vec :=
  force_weight •
    limit (self.max_speed • normalize (target - self.position) - self.velocity)
      self.max_force

/-- Source Boid.cohesion: average the positions of neighbors; when the
count is positive, seek toward that center of mass; otherwise return the
zero vector. -/
noncomputable def Boid.cohesion (self : Boid) (boids : List Boid)
    (perception_radius force_weight : ℝ) : Vec :=
  let acc := neighborAccum self perception_radius (fun other => other.position)
    boids
  if 0 < acc.2 then self.seek (vdiv acc.1 acc.2) force_weight
  else (0, 0)

/-- Source Boid.wrapAround: for each axis in turn, a coordinate strictly
beyond the upper bound snaps to 0, then a coordinate strictly below 0
snaps to the upper bound. -/
noncomputable def Boid.wrapAround (b : Boid) (width height : ℝ) : Boid :=
  let x1 := if b.position.1 > width then 0 else b.position.1
  let x2 := if x1 < 0 then width else x1
  let y1 := if b.position.2 > height then 0 else b.position.2
  let y2 := if y1 < 0 then height else y1
  { b with position := (x2, y2) }

/-- The orchestrator, mirroring class Simulation: the insertion-ordered
agent collection, the world bounds, and the shared tunables. -/
structure Simulation where
  boids : List Boid
  width : ℝ
  height : ℝ
  separation_force : ℝ
  alignment_force : ℝ
  cohesion_force : ℝ
  perception_radius : ℝ

/-- Source Simulation constructor: empty collection, the given bounds,
and the default tunables 1.5 / 1.0 / 1.0 / 100. -/
noncomputable def mkSimulation (width height : ℝ) : Simulation :=
  { boids := []
    width := width
    height := height
    separation_force := 1.5
    alignment_force := 1.0
    cohesion_force := 1.0
    perception_radius := 100 }

/-- Source Simulation.addBoid: append to the end of the collection. -/
noncomputable def Simulation.addBoid (s : Simulation) (b : Boid) : Simulation :=
  { s with boids := s.boids ++ [b] }

/-- Source Simulation.removeBoid: find the index of the first occurrence
by identity (Array.indexOf, modelled on the id field); if found, splice
out that single element, otherwise do nothing. -/
noncomputable def Simulation.removeBoid (s : Simulation) (b : Boid) :
    Simulation :=
  match s.boids.findIdx? (fun x => x.id == b.id) with
  | some i => { s with boids := s.boids.eraseIdx i }
  | none => s

/-- One iteration of the Simulation.update loop body for the boid stored
at index i of the current collection: compute the three forces against
the current full collection, apply them, integrate, and wrap. -/
noncomputable def Simulation.stepBoid (s : Simulation) (boids : List Boid)
    (b : Boid) : Boid :=
  let sep := b.separation boids s.perception_radius s.separation_force
  let ali := b.alignment boids s.perception_radius s.alignment_force
  let coh := b.cohesion boids s.perception_radius s.cohesion_force
  ((((b.applyForce sep).applyForce ali).applyForce coh).update).wrapAround
    s.width s.height

/-- The Simulation.update loop: for i from the current index upward (with
enough fuel for the whole collection), replace the boid at index i by its
stepped state — so the force computations of every later index read the
already-updated states of earlier indices. -/
noncomputable def Simulation.updateAux (s : Simulation) :
    List Boid → ℕ → ℕ → List Boid
  | boids, _, 0 => boids
  | boids, i, n + 1 =>
    match boids[i]? with
    | none => boids
    | some b => Simulation.updateAux s (boids.set i (s.stepBoid boids b))
        (i + 1) n

/-- Source Simulation.update: run the sequential per-agent loop over the
whole collection, in insertion order. -/
noncomputable def Simulation.update (s : Simulation) : Simulation :=
  { s with boids := s.updateAux s.boids 0 s.boids.length }

/-- Source ControlPanel maxSpeed setter: assign the new value to the
max_speed field of every agent currently in the collection. -/
noncomputable def setMaxSpeed (s : Simulation) (value : ℝ) : Simulation :=
  { s with boids := s.boids.map (fun b => { b with max_speed := value }) }

/-- Source ControlPanel boidCount setter, raising branch: each newly
spawned agent is simulation.addBoid(new Boid(x, y)) at a random position
(the fresh identity, position and random unit velocity are parameters
here). -/
noncomputable def controlPanelSpawn (s : Simulation) (i : ℕ) (x y : ℝ)
    (vel : Vec) : Simulation :=
  s.addBoid (mkBoid i x y vel)

/-- The zero pair is the zero vector of the product group. -/
theorem vec_zero : ((0, 0) : Vec) = 0 := rfl

/-- The list of neighbors of an agent inside a collection: exactly the
members passing the 0 < d < radius test, in collection order. -/
noncomputable def neighborList (self : Boid) (r : ℝ) (boids : List Boid) :
    List Boid :=
  boids.filter (fun other => decide (isNeighbor self r other))

theorem neighborAccum_loop (self : Boid) (r : ℝ) (f : Boid → Vec) :
    ∀ (boids : List Boid) (p : Vec) (c : ℕ),
      boids.foldl
        (fun acc other =>
          if isNeighbor self r other then (acc.1 + f other, acc.2 + 1)
          else acc) (p, c)
      = (p + ((neighborList self r boids).map f).sum,
          c + (neighborList self r boids).length) := by
  intro boids
  induction boids with
  | nil => intro p c; simp [neighborList]
  | cons a l ih =>
    intro p c
    by_cases h : isNeighbor self r a
    · rw [List.foldl_cons, if_pos h, ih (p + f a) (c + 1)]
      have hfil : neighborList self r (a :: l) = a :: neighborList self r l := by
        simp [neighborList, List.filter_cons, h]
      rw [hfil, Prod.mk.injEq]
      constructor
      · rw [List.map_cons, List.sum_cons, add_assoc]
      · rw [List.length_cons]; omega
    · rw [List.foldl_cons, if_neg h, ih p c]
      have hfil : neighborList self r (a :: l) = neighborList self r l := by
        simp [neighborList, List.filter_cons, h]
      rw [hfil]

/-- The shared accumulation loop returns the sum of the contributions of
the neighbors together with the neighbor count. -/
theorem neighborAccum_eq (self : Boid) (r : ℝ) (f : Boid → Vec)
    (boids : List Boid) :
    neighborAccum self r f boids
      = (((neighborList self r boids).map f).sum,
          (neighborList self r boids).length) := by
  unfold neighborAccum
  rw [neighborAccum_loop self r f boids (0, 0) 0]
  simp [vec_zero]

/-- When no member of the collection passes the neighbor test, the
neighbor list is empty. -/
theorem neighborList_eq_nil {self : Boid} {r : ℝ} {boids : List Boid}
    (h : ∀ o ∈ boids, ¬ isNeighbor self r o) :
    neighborList self r boids = [] := by
  unfold neighborList
  rw [List.filter_eq_nil_iff]
  intro a ha
  simpa using h a ha

/-- C1. After any single Boid.update call (whatever forces were
accumulated, provided max_speed is nonnegative), the velocity magnitude
is at most max_speed and the acceleration is reset to the zero
vector. -/
theorem update_clamps_velocity_and_resets_acceleration (b : Boid)
    (h : 0 ≤ b.max_speed) :
    vmag (Boid.update b).velocity ≤ b.max_speed ∧
      (Boid.update b).acceleration = (0, 0) := by
  constructor
  · show vmag (limit (b.velocity + limit b.acceleration b.max_force)
      b.max_speed) ≤ b.max_speed
    exact vmag_limit_le _ h
  · rfl

/-- C1 witness: the clamping invariant evaluated on a freshly
constructed agent (max_speed 4) with velocity (3, 4). -/
theorem update_clamps_witness :
    (0 : ℝ) ≤ (mkBoid 0 1 2 (3, 4)).max_speed ∧
      (vmag (Boid.update (mkBoid 0 1 2 (3, 4))).velocity
          ≤ (mkBoid 0 1 2 (3, 4)).max_speed ∧
        (Boid.update (mkBoid 0 1 2 (3, 4))).acceleration = (0, 0)) :=
  ⟨by norm_num [mkBoid],
    update_clamps_velocity_and_resets_acceleration (mkBoid 0 1 2 (3, 4))
      (by norm_num [mkBoid])⟩

/-- C7. When no other agent passes the 0 < d < radius test, each of the
three steering rules returns exactly the zero vector. -/
theorem empty_neighborhood_forces_zero (self : Boid) (boids : List Boid)
    (r w : ℝ) (h : ∀ o ∈ boids, ¬ isNeighbor self r o) :
    self.separation boids r w = (0, 0) ∧
      self.alignment boids r w = (0, 0) ∧
        self.cohesion boids r w = (0, 0) := by
  have hnil := neighborList_eq_nil h
  have hacc : ∀ f : Boid → Vec, neighborAccum self r f boids = ((0, 0), 0) := by
    intro f
    rw [neighborAccum_eq, hnil]
    simp [vec_zero]
  refine ⟨?_, ?_, ?_⟩
  · unfold Boid.separation
    rw [hacc]
    simp [vec_zero]
  · unfold Boid.alignment
    rw [hacc]
    simp
  · unfold Boid.cohesion
    rw [hacc]
    simp

/-- C7 witness: an agent alone in the collection (its distance to itself
is 0, failing the strict test) gets zero separation, alignment and
cohesion forces. -/
theorem empty_neighborhood_forces_zero_witness :
    (∀ o ∈ [mkBoid 0 5 5 (1, 0)],
        ¬ isNeighbor (mkBoid 0 5 5 (1, 0)) 100 o) ∧
      ((mkBoid 0 5 5 (1, 0)).separation [mkBoid 0 5 5 (1, 0)] 100 1.5 = (0, 0) ∧
        (mkBoid 0 5 5 (1, 0)).alignment [mkBoid 0 5 5 (1, 0)] 100 1.0 = (0, 0) ∧
          (mkBoid 0 5 5 (1, 0)).cohesion [mkBoid 0 5 5 (1, 0)] 100 1.0 = (0, 0)) := by
  have hself : ∀ o ∈ [mkBoid 0 5 5 (1, 0)],
      ¬ isNeighbor (mkBoid 0 5 5 (1, 0)) 100 o := by
    intro o ho
    rcases List.mem_singleton.mp ho with rfl
    intro hn
    have hd : vdist (mkBoid 0 5 5 (1, 0)).position (mkBoid 0 5 5 (1, 0)).position
        = 0 := by
      simp [vdist, vmag]
    have h0 := hn.1
    rw [hd] at h0
    exact lt_irrefl 0 h0
  refine ⟨hself, ?_, ?_, ?_⟩
  · exact (empty_neighborhood_forces_zero _ _ _ _ hself).1
  · exact (empty_neighborhood_forces_zero _ _ _ _ hself).2.1
  · exact (empty_neighborhood_forces_zero _ _ _ _ hself).2.2

/-- The separation steer is assembled independently of the weight, which
multiplies it as the very last step. -/
theorem separation_weight_smul (self : Boid) (boids : List Boid) (r w : ℝ) :
    self.separation boids r w = w • self.separation boids r 1 := by
  unfold Boid.separation
  rw [one_smul]

/-- The alignment steer is assembled independently of the weight, which
multiplies it as the very last step. -/
theorem alignment_weight_smul (self : Boid) (boids : List Boid) (r w : ℝ) :
    self.alignment boids r w = w • self.alignment boids r 1 := by
  unfold Boid.alignment
  dsimp only
  split_ifs with h
  · rw [one_smul]
  · rw [vec_zero, smul_zero]

/-- The cohesion steer is assembled independently of the weight, which
multiplies it as the very last step (inside seek). -/
theorem cohesion_weight_smul (self : Boid) (boids : List Boid) (r w : ℝ) :
    self.cohesion boids r w = w • self.cohesion boids r 1 := by
  unfold Boid.cohesion Boid.seek
  dsimp only
  split_ifs with h
  · rw [one_smul]
  · rw [vec_zero, smul_zero]

/-- C6. For each steering rule the weight multiplies the clamped steer as
the final, never re-clamped step: the result at weight w is exactly w
times the result at weight 1, hence the magnitude scales linearly with
the absolute weight (so it may exceed max_force when its absolute value
exceeds 1) and the vector negates when the weight's sign flips. -/
theorem weight_applied_last_linear (self : Boid) (boids : List Boid)
    (r w : ℝ) :
    (self.separation boids r w = w • self.separation boids r 1 ∧
      self.alignment boids r w = w • self.alignment boids r 1 ∧
        self.cohesion boids r w = w • self.cohesion boids r 1) ∧
    (vmag (self.separation boids r w) = |w| * vmag (self.separation boids r 1) ∧
      vmag (self.alignment boids r w) = |w| * vmag (self.alignment boids r 1) ∧
        vmag (self.cohesion boids r w) = |w| * vmag (self.cohesion boids r 1)) ∧
    (self.separation boids r (-w) = -(self.separation boids r w) ∧
      self.alignment boids r (-w) = -(self.alignment boids r w) ∧
        self.cohesion boids r (-w) = -(self.cohesion boids r w)) := by
  refine ⟨⟨separation_weight_smul self boids r w,
      alignment_weight_smul self boids r w,
      cohesion_weight_smul self boids r w⟩, ⟨?_, ?_, ?_⟩, ⟨?_, ?_, ?_⟩⟩
  · rw [separation_weight_smul self boids r w, vmag_smul]
  · rw [alignment_weight_smul self boids r w, vmag_smul]
  · rw [cohesion_weight_smul self boids r w, vmag_smul]
  · rw [separation_weight_smul self boids r (-w),
      separation_weight_smul self boids r w, neg_smul]
  · rw [alignment_weight_smul self boids r (-w),
      alignment_weight_smul self boids r w, neg_smul]
  · rw [cohesion_weight_smul self boids r (-w),
      cohesion_weight_smul self boids r w, neg_smul]

/-- The separation formula exactly as the specification words it: sum,
over all agents at distance d with 0 < d < radius, of the normalized
vector from the neighbor to self scaled by 1/d; divide by the neighbor
count; normalize; scale to max_speed; subtract the current velocity;
clamp the magnitude to max_force; finally multiply by the weight. -/
noncomputable def separationSpec (self : Boid) (boids : List Boid)
    (perception_radius force_weight : ℝ) : Vec :=
  let ns := neighborList self perception_radius boids
  let avg := vdiv ((ns.map (fun other =>
    (1 / vdist self.position other.position) •
      normalize (self.position - other.position))).sum) ns.length
  force_weight •
    limit (self.max_speed • normalize avg - self.velocity) self.max_force

/-- C3. Whenever the neighbor set is nonempty, Boid.separation returns
exactly the specification's formula, and an agent at distance exactly 0
(self or a coincident agent) contributes nothing: dropping it from the
collection leaves the result unchanged. -/
theorem separation_matches_spec_formula :
    (∀ (self : Boid) (boids : List Boid) (r w : ℝ),
        neighborList self r boids ≠ [] →
          self.separation boids r w = separationSpec self boids r w) ∧
    (∀ (self o : Boid) (rest : List Boid) (r w : ℝ),
        vdist self.position o.position = 0 →
          self.separation (o :: rest) r w = self.separation rest r w) := by
  constructor
  · intro self boids r w hne
    unfold Boid.separation separationSpec
    rw [neighborAccum_eq]
    have hpos : 0 < (neighborList self r boids).length :=
      List.length_pos.mpr hne
    dsimp only
    rw [if_pos hpos]
  · intro self o rest r w hd
    have hno : ¬ isNeighbor self r o := by
      intro hn
      have h0 := hn.1
      rw [hd] at h0
      exact lt_irrefl 0 h0
    have hfil : neighborList self r (o :: rest) = neighborList self r rest := by
      simp [neighborList, List.filter_cons, hno]
    unfold Boid.separation
    rw [neighborAccum_eq, neighborAccum_eq, hfil]

/-- C3 witness: two agents 10 units apart on the x axis, radius 100,
weight 2, instantiating both conjuncts of the separation formula
theorem. -/
theorem separation_matches_spec_formula_witness :
    (neighborList (mkBoid 0 0 0 (0, 0)) 100 [mkBoid 0 0 0 (0, 0), mkBoid 1 10 0 (0, 0)] ≠ [] ∧
      (mkBoid 0 0 0 (0, 0)).separation [mkBoid 0 0 0 (0, 0), mkBoid 1 10 0 (0, 0)] 100 2
        = separationSpec (mkBoid 0 0 0 (0, 0)) [mkBoid 0 0 0 (0, 0), mkBoid 1 10 0 (0, 0)] 100 2) ∧
    (vdist (mkBoid 0 0 0 (0, 0)).position (mkBoid 0 0 0 (0, 0)).position = 0 ∧
      (mkBoid 0 0 0 (0, 0)).separation [mkBoid 0 0 0 (0, 0), mkBoid 1 10 0 (0, 0)] 100 2
        = (mkBoid 0 0 0 (0, 0)).separation [mkBoid 1 10 0 (0, 0)] 100 2) := by
  have hd : vdist (mkBoid 0 0 0 (0, 0)).position (mkBoid 1 10 0 (0, 0)).position = 10 := by
    have h1 : (mkBoid 1 10 0 (0, 0)).position - (mkBoid 0 0 0 (0, 0)).position
        = ((10 : ℝ), (0 : ℝ)) := by
      simp [mkBoid, vec_sub]
    rw [vdist, h1, vmag]
    rw [show (10 : ℝ) * 10 + 0 * 0 = 10 * 10 by ring, Real.sqrt_mul_self (by norm_num)]
  have hdself : vdist (mkBoid 0 0 0 (0, 0)).position (mkBoid 0 0 0 (0, 0)).position = 0 := by
    simp [mkBoid, vdist, vmag]
  have hB : isNeighbor (mkBoid 0 0 0 (0, 0)) 100 (mkBoid 1 10 0 (0, 0)) := by
    unfold isNeighbor
    rw [hd]
    norm_num
  have hA : ¬ isNeighbor (mkBoid 0 0 0 (0, 0)) 100 (mkBoid 0 0 0 (0, 0)) := by
    intro hn
    have h0 := hn.1
    rw [hdself] at h0
    exact lt_irrefl 0 h0
  have hne : neighborList (mkBoid 0 0 0 (0, 0)) 100
      [mkBoid 0 0 0 (0, 0), mkBoid 1 10 0 (0, 0)] = [mkBoid 1 10 0 (0, 0)] := by
    unfold neighborList
    simp only [List.filter_cons, List.filter_nil, decide_eq_true_eq]
    rw [if_neg hA, if_pos hB]
  refine ⟨⟨?_, ?_⟩, hdself, ?_⟩
  · rw [hne]
    intro hcontra
    exact List.cons_ne_nil _ _ hcontra
  · exact separation_matches_spec_formula.1 _ _ _ _ (by
      rw [hne]
      exact List.cons_ne_nil _ _)
  · exact separation_matches_spec_formula.2 _ _ _ _ _ hdself

/-- C9. For a nonzero vector and a negative max, limit always takes the
rescaling branch: the result is normalize(v) componentwise times max (a
vector opposite to v), its magnitude is exactly -max, and in particular
it strictly exceeds max, so the bound does not hold for negative max. -/
theorem limit_negative_max_reverses (v : Vec) (max : ℝ) (hv : v ≠ (0, 0))
    (hmax : max < 0) :
    limit v max = ((normalize v).1 * max, (normalize v).2 * max) ∧
      vmag (limit v max) = -max ∧ max < vmag (limit v max) := by
  have hm0 : vmag v ≠ 0 := fun h => hv ((vmag_eq_zero_iff v).mp h)
  have hmpos : 0 < vmag v := lt_of_le_of_ne (vmag_nonneg v) (Ne.symm hm0)
  have hgt : vmag v > max := lt_trans hmax hmpos
  have hbranch : limit v max = ((normalize v).1 * max, (normalize v).2 * max) := by
    unfold limit
    rw [if_pos hgt]
  have hmag : vmag (limit v max) = -max := by
    rw [hbranch]
    have hc : ((normalize v).1 * max, (normalize v).2 * max)
        = (max * (normalize v).1, max * (normalize v).2) := by
      rw [mul_comm ((normalize v).1) max, mul_comm ((normalize v).2) max]
    rw [hc, vmag_scale, vmag_normalize hv, mul_one, abs_of_neg hmax]
  exact ⟨hbranch, hmag, by rw [hmag]; linarith⟩

/-- C9 witness: limit applied to (3, 4) with max = -1 reverses the
vector, with magnitude 1 rather than at most -1. -/
theorem limit_negative_max_reverses_witness :
    ((3, 4) : Vec) ≠ (0, 0) ∧ (-1 : ℝ) < 0 ∧
      (limit ((3, 4) : Vec) (-1)
          = ((normalize ((3, 4) : Vec)).1 * (-1), (normalize ((3, 4) : Vec)).2 * (-1)) ∧
        vmag (limit ((3, 4) : Vec) (-1)) = -(-1) ∧
          (-1 : ℝ) < vmag (limit ((3, 4) : Vec) (-1))) := by
  have hv : ((3, 4) : Vec) ≠ (0, 0) := by
    intro h
    have h3 : (3 : ℝ) = 0 := congrArg Prod.fst h
    norm_num at h3
  exact ⟨hv, by norm_num,
    limit_negative_max_reverses ((3, 4) : Vec) (-1) hv (by norm_num)⟩

/-- C4 counterexample: a boid whose x coordinate is exactly the width
(position (5, 1), bounds 5 x 5) is left untouched by wrapAround, while
the claim demands that a coordinate equal to the upper bound map to 0. -/
theorem wrapAround_at_bound_counterexample :
    ((mkBoid 0 5 1 (1, 0)).wrapAround 5 5).position = ((5 : ℝ), (1 : ℝ)) ∧
      (5 : ℝ) ≠ 0 := by
  constructor
  · unfold Boid.wrapAround
    have hpos : (mkBoid 0 5 1 (1, 0)).position = ((5 : ℝ), (1 : ℝ)) := rfl
    rw [hpos]
    norm_num
  · norm_num

/-- C4 amended. wrapAround handles each axis independently and never
touches velocity or acceleration: a coordinate strictly greater than the
upper bound snaps to 0, a coordinate strictly below 0 snaps to the upper
bound, and every other coordinate — including one exactly equal to the
bound — is unchanged. -/
theorem wrapAround_characterization (b : Boid) (w h : ℝ) :
    (b.wrapAround w h).velocity = b.velocity ∧
      (b.wrapAround w h).acceleration = b.acceleration ∧
        (b.wrapAround w h).position.1
            = (if w < b.position.1 then 0
                else if b.position.1 < 0 then w else b.position.1) ∧
          (b.wrapAround w h).position.2
              = (if h < b.position.2 then 0
                  else if b.position.2 < 0 then h else b.position.2) := by
  unfold Boid.wrapAround
  refine ⟨rfl, rfl, ?_, ?_⟩
  · show (if (if b.position.1 > w then 0 else b.position.1) < 0 then w
        else if b.position.1 > w then 0 else b.position.1)
      = if w < b.position.1 then 0 else if b.position.1 < 0 then w else b.position.1
    split_ifs with h1 h2 <;> first | rfl | linarith
  · show (if (if b.position.2 > h then 0 else b.position.2) < 0 then h
        else if b.position.2 > h then 0 else b.position.2)
      = if h < b.position.2 then 0 else if b.position.2 < 0 then h else b.position.2
    split_ifs with h1 h2 <;> first | rfl | linarith

theorem findIdx?_none_of_all_false {α : Type} (p : α → Bool) :
    ∀ (l : List α) (i : ℕ), (∀ x ∈ l, p x = false) → l.findIdx? p i = none := by
  intro l
  induction l with
  | nil => intro i _; rfl
  | cons a t ih =>
    intro i h
    have ha : p a = false := h a (List.mem_cons_self a t)
    simp only [List.findIdx?, ha, Bool.false_eq_true, if_false]
    exact ih (i + 1) (fun x hx => h x (List.mem_cons_of_mem a hx))

theorem findIdx?_first_hit {α : Type} (p : α → Bool) (b0 : α)
    (hb0 : p b0 = true) :
    ∀ (l1 : List α) (l2 : List α) (i : ℕ), (∀ x ∈ l1, p x = false) →
      (l1 ++ b0 :: l2).findIdx? p i = some (i + l1.length) := by
  intro l1
  induction l1 with
  | nil =>
    intro l2 i _
    simp only [List.nil_append, List.findIdx?, hb0, if_true, List.length_nil,
      Nat.add_zero]
  | cons a t ih =>
    intro l2 i h
    have ha : p a = false := h a (List.mem_cons_self a t)
    simp only [List.cons_append, List.findIdx?, ha, Bool.false_eq_true, if_false]
    show List.findIdx? p (t ++ b0 :: l2) (i + 1) = some (i + (a :: t).length)
    rw [ih l2 (i + 1) (fun x hx => h x (List.mem_cons_of_mem a hx))]
    simp only [List.length_cons]
    exact congrArg some (by omega)

theorem eraseIdx_at_split {α : Type} (b0 : α) :
    ∀ (l1 l2 : List α), (l1 ++ b0 :: l2).eraseIdx l1.length = l1 ++ l2 := by
  intro l1
  induction l1 with
  | nil => intro l2; rfl
  | cons a t ih => intro l2; simp [List.eraseIdx, ih]

/-- C8. removeBoid removes exactly the first occurrence (by identity) of
the agent and keeps the relative order of everything else: when no agent
in the collection shares the target's identity it is a silent no-op that
leaves the whole simulation state unchanged, and when the collection
splits as l1 ++ first-occurrence :: l2 (no occurrence inside l1) the
result is l1 ++ l2 with every other simulation field untouched. -/
theorem removeBoid_first_occurrence_or_noop (s : Simulation) (b : Boid) :
    ((∀ x ∈ s.boids, x.id ≠ b.id) → s.removeBoid b = s) ∧
      (∀ (l1 : List Boid) (b0 : Boid) (l2 : List Boid),
        s.boids = l1 ++ b0 :: l2 → (∀ x ∈ l1, x.id ≠ b.id) → b0.id = b.id →
          s.removeBoid b = { s with boids := l1 ++ l2 }) := by
  constructor
  · intro h
    unfold Simulation.removeBoid
    rw [findIdx?_none_of_all_false _ s.boids 0
      (fun x hx => by simpa using h x hx)]
  · intro l1 b0 l2 hsplit h1 hb0
    unfold Simulation.removeBoid
    rw [hsplit, findIdx?_first_hit _ b0 (by simpa using hb0) l1 l2 0
      (fun x hx => by simpa using h1 x hx)]
    rw [Nat.zero_add]
    show ({ s with boids := (l1 ++ b0 :: l2).eraseIdx l1.length } : Simulation)
      = { s with boids := l1 ++ l2 }
    rw [eraseIdx_at_split b0 l1 l2]

/-- A one-agent simulation used to exercise removeBoid on an absent
agent. -/
noncomputable def remSimOne : Simulation :=
  { boids := [mkBoid 1 0 0 (1, 0)]
    width := 800
    height := 800
    separation_force := 1.5
    alignment_force := 1
    cohesion_force := 1
    perception_radius := 100 }

/-- A three-agent simulation used to exercise removeBoid on the middle
agent. -/
noncomputable def remSimThree : Simulation :=
  { remSimOne with
    boids := [mkBoid 1 0 0 (1, 0), mkBoid 2 1 1 (1, 0), mkBoid 3 2 2 (1, 0)] }

/-- C8 witness: removing an absent agent changes nothing, and removing
the middle agent of a three-agent collection by identity keeps the outer
two in order. -/
theorem removeBoid_first_occurrence_witness :
    ((∀ x ∈ remSimOne.boids, x.id ≠ (mkBoid 9 0 0 (1, 0)).id) ∧
      remSimOne.removeBoid (mkBoid 9 0 0 (1, 0)) = remSimOne) ∧
    remSimThree.removeBoid (mkBoid 2 1 1 (1, 0))
      = { remSimThree with boids := [mkBoid 1 0 0 (1, 0), mkBoid 3 2 2 (1, 0)] } := by
  constructor
  · have habs : ∀ x ∈ remSimOne.boids, x.id ≠ (mkBoid 9 0 0 (1, 0)).id := by
      intro x hx
      rcases List.mem_singleton.mp hx with rfl
      show (1 : ℕ) ≠ 9
      norm_num
    exact ⟨habs, (removeBoid_first_occurrence_or_noop remSimOne _).1 habs⟩
  · have hmid := (removeBoid_first_occurrence_or_noop remSimThree
        (mkBoid 2 1 1 (1, 0))).2
      [mkBoid 1 0 0 (1, 0)] (mkBoid 2 1 1 (1, 0)) [mkBoid 3 2 2 (1, 0)] rfl
      (by
        intro x hx
        rcases List.mem_singleton.mp hx with rfl
        show (1 : ℕ) ≠ 2
        norm_num)
      rfl
    exact hmid

/-- C5. The ControlPanel maxSpeed setter updates every agent currently in
the collection — but an agent spawned afterwards through the boid-count
setter is constructed with the default max_speed 4, not the previously
chosen value: after setting max_speed to 6 on a one-agent simulation and
spawning one more agent, the per-agent max_speed values are [6, 4]. -/
theorem maxSpeed_not_applied_to_future_agents :
    (∀ (s : Simulation) (v : ℝ),
        (setMaxSpeed s v).boids.map Boid.max_speed = s.boids.map (fun _ => v)) ∧
      ((controlPanelSpawn (setMaxSpeed remSimOne 6) 7 2 2 (1, 0)).boids.map
          Boid.max_speed = [6, 4] ∧
        (6 : ℝ) ≠ 4) := by
  refine ⟨?_, ?_, by norm_num⟩
  · intro s v
    show (s.boids.map (fun b => { b with max_speed := v })).map Boid.max_speed
        = s.boids.map (fun _ => v)
    rw [List.map_map]
    rfl
  · simp [controlPanelSpawn, setMaxSpeed, Simulation.addBoid, remSimOne, mkBoid]

theorem set_getElem?_same {α : Type} :
    ∀ (l : List α) (i : ℕ) (a : α), l[i]? = some a → l.set i a = l := by
  intro l
  induction l with
  | nil => intro i a h; cases h
  | cons x t ih =>
    intro i a h
    cases i with
    | zero =>
      have hx : a = x := by
        have := h
        simp at this
        exact this.symm
      rw [hx]
      rfl
    | succ j =>
      have ht : t[j]? = some a := by simpa using h
      show x :: t.set j a = x :: t
      rw [ih j a ht]

/-- Any per-agent field that every loop-body step preserves is preserved
by the whole sequential update loop, position by position. -/
theorem updateAux_map {α : Type} (s : Simulation) (g : Boid → α)
    (hg : ∀ (boids : List Boid) (b : Boid), g (s.stepBoid boids b) = g b) :
    ∀ (n : ℕ) (boids : List Boid) (i : ℕ),
      (s.updateAux boids i n).map g = boids.map g := by
  intro n
  induction n with
  | zero => intro boids i; rfl
  | succ m ih =>
    intro boids i
    cases hget : boids[i]? with
    | none => simp only [Simulation.updateAux, hget]
    | some b =>
      simp only [Simulation.updateAux, hget]
      rw [ih]
      rw [List.map_set, hg boids b]
      exact set_getElem?_same (boids.map g) i (g b)
        (by rw [List.getElem?_map, hget]; rfl)

/-- C10. Simulation.update neither adds nor removes agents: the identity
sequence of the collection (hence its membership, order and length) is
unchanged, the per-agent max_speed and max_force fields are unchanged
(only position, velocity and acceleration are mutated), and all the
simulation-level fields — bounds, the three force weights and the
perception radius — keep their values. -/
theorem update_preserves_collection_and_config (s : Simulation) :
    ((s.update).boids.map Boid.id = s.boids.map Boid.id ∧
      (s.update).boids.map Boid.max_speed = s.boids.map Boid.max_speed ∧
        (s.update).boids.map Boid.max_force = s.boids.map Boid.max_force ∧
          (s.update).boids.length = s.boids.length) ∧
    ((s.update).width = s.width ∧ (s.update).height = s.height ∧
      (s.update).separation_force = s.separation_force ∧
        (s.update).alignment_force = s.alignment_force ∧
          (s.update).cohesion_force = s.cohesion_force ∧
            (s.update).perception_radius = s.perception_radius) := by
  have hid : (s.update).boids.map Boid.id = s.boids.map Boid.id :=
    updateAux_map s Boid.id (fun _ _ => rfl) s.boids.length s.boids 0
  refine ⟨⟨hid, ?_, ?_, ?_⟩, rfl, rfl, rfl, rfl, rfl, rfl⟩
  · exact updateAux_map s Boid.max_speed (fun _ _ => rfl) s.boids.length s.boids 0
  · exact updateAux_map s Boid.max_force (fun _ _ => rfl) s.boids.length s.boids 0
  · have := congrArg List.length hid
    simpa using this

/-- The alternative per-tick semantics that the specification forbids,
written from its words: compute every agent's three forces against the
start-of-tick collection, then apply, integrate and wrap each agent — a
compute-all-forces-then-apply-all two-pass design. -/
noncomputable def Simulation.updateTwoPass (s : Simulation) : Simulation :=
  { s with boids := s.boids.map (fun b => s.stepBoid s.boids b) }

theorem vmag_zero : vmag ((0 : ℝ), (0 : ℝ)) = 0 := by
  unfold vmag
  norm_num

theorem vmag_zero' : vmag (0 : Vec) = 0 := vmag_zero

theorem vmag_axis (x : ℝ) : vmag (x, 0) = |x| := by
  unfold vmag
  show Real.sqrt (x * x + 0 * 0) = |x|
  rw [mul_zero, add_zero, Real.sqrt_mul_self_eq_abs]

theorem vmag_axis_nonneg {x : ℝ} (hx : 0 ≤ x) : vmag (x, 0) = x := by
  rw [vmag_axis, abs_of_nonneg hx]

theorem vmag_axis_neg {x : ℝ} (hx : x < 0) : vmag (x, 0) = -x := by
  rw [vmag_axis, abs_of_neg hx]

theorem normalize_axis_pos {x : ℝ} (hx : 0 < x) : normalize (x, 0) = (1, 0) := by
  unfold normalize
  rw [vmag_axis, abs_of_pos hx, if_neg (ne_of_gt hx)]
  show (x / x, 0 / x) = ((1 : ℝ), (0 : ℝ))
  rw [div_self (ne_of_gt hx), zero_div]

theorem normalize_axis_neg {x : ℝ} (hx : x < 0) : normalize (x, 0) = (-1, 0) := by
  unfold normalize
  have hne : -x ≠ 0 := by intro h; apply absurd hx; rw [show x = 0 by linarith]; exact lt_irrefl 0
  rw [vmag_axis, abs_of_neg hx, if_neg hne]
  show (x / -x, 0 / -x) = ((-1 : ℝ), (0 : ℝ))
  rw [div_neg, div_self (ne_of_lt hx), zero_div]

theorem limit_of_not_gt {v : Vec} {m : ℝ} (h : ¬ vmag v > m) : limit v m = v := by
  unfold limit
  rw [if_neg h]

theorem limit_of_gt {v : Vec} {m : ℝ} (h : vmag v > m) :
    limit v m = ((normalize v).1 * m, (normalize v).2 * m) := by
  unfold limit
  rw [if_pos h]

theorem vdist_eval (a b c d : ℝ) :
    vdist (a, b) (c, d) = vmag (c - a, d - b) := rfl

/-- First demo agent of the order-dependence scenario: at the origin, at
rest. -/
noncomputable def demoA : Boid :=
  { id := 0, position := (0, 0), velocity := (0, 0), acceleration := (0, 0),
    max_speed := 4, max_force := 0.2 }

/-- Second demo agent: 10 units to the right of the first, at rest. -/
noncomputable def demoB : Boid :=
  { id := 1, position := (10, 0), velocity := (0, 0), acceleration := (0, 0),
    max_speed := 4, max_force := 0.2 }

/-- Demo simulation: the two agents above in an 800 x 800 world,
separation weight 1, alignment and cohesion weights 0, radius 100. -/
noncomputable def demoSim : Simulation :=
  { boids := [demoA, demoB], width := 800, height := 800,
    separation_force := 1, alignment_force := 0, cohesion_force := 0,
    perception_radius := 100 }

/-- The first demo agent after its sequential step: pushed left by
separation and wrapped to the far edge. -/
noncomputable def demoA' : Boid :=
  { id := 0, position := (800, 0), velocity := (-0.2, 0),
    acceleration := (0, 0), max_speed := 4, max_force := 0.2 }

/-- The second demo agent as the forbidden two-pass semantics would leave
it: pushed right by separation from the first agent's stale position. -/
noncomputable def demoB2 : Boid :=
  { id := 1, position := (10.2, 0), velocity := (0.2, 0),
    acceleration := (0, 0), max_speed := 4, max_force := 0.2 }

theorem demo_dAA : vdist demoA.position demoA.position = 0 := by
  show vdist (0, 0) (0, 0) = 0
  rw [vdist_eval]
  norm_num [vmag_zero']

theorem demo_dAB : vdist demoA.position demoB.position = 10 := by
  show vdist (0, 0) (10, 0) = 10
  rw [vdist_eval]
  norm_num
  rw [vmag_axis_nonneg]
  norm_num

theorem demo_dBA : vdist demoB.position demoA.position = 10 := by
  show vdist (10, 0) (0, 0) = 10
  rw [vdist_eval]
  norm_num
  rw [vmag_axis_neg (by norm_num : (-10 : ℝ) < 0)]
  norm_num

theorem demo_dBB : vdist demoB.position demoB.position = 0 := by
  show vdist (10, 0) (10, 0) = 0
  rw [vdist_eval]
  norm_num [vmag_zero']

theorem demo_dBA1 : vdist demoB.position demoA'.position = 790 := by
  show vdist (10, 0) (800, 0) = 790
  rw [vdist_eval]
  norm_num
  rw [vmag_axis_nonneg]
  norm_num

theorem demo_nAA : ¬ isNeighbor demoA 100 demoA := by
  unfold isNeighbor
  rw [demo_dAA]
  norm_num

theorem demo_nAB : isNeighbor demoA 100 demoB := by
  unfold isNeighbor
  rw [demo_dAB]
  norm_num

theorem demo_nBA : isNeighbor demoB 100 demoA := by
  unfold isNeighbor
  rw [demo_dBA]
  norm_num

theorem demo_nBB : ¬ isNeighbor demoB 100 demoB := by
  unfold isNeighbor
  rw [demo_dBB]
  norm_num

theorem demo_nBA1 : ¬ isNeighbor demoB 100 demoA' := by
  unfold isNeighbor
  rw [demo_dBA1]
  norm_num

theorem demo_accA (f : Boid → Vec) :
    neighborAccum demoA 100 f [demoA, demoB] = ((0, 0) + f demoB, 1) := by
  unfold neighborAccum
  simp only [List.foldl_cons, List.foldl_nil]
  rw [if_neg demo_nAA, if_pos demo_nAB]

theorem demo_accB_seq (f : Boid → Vec) :
    neighborAccum demoB 100 f [demoA', demoB] = ((0, 0), 0) := by
  unfold neighborAccum
  simp only [List.foldl_cons, List.foldl_nil]
  rw [if_neg demo_nBA1, if_neg demo_nBB]

theorem demo_accB_two (f : Boid → Vec) :
    neighborAccum demoB 100 f [demoA, demoB] = ((0, 0) + f demoA, 1) := by
  unfold neighborAccum
  simp only [List.foldl_cons, List.foldl_nil]
  rw [if_pos demo_nBA, if_neg demo_nBB]

theorem demo_sepA : demoA.separation [demoA, demoB] 100 1 = (-0.2, 0) := by
  unfold Boid.separation
  rw [demo_accA]
  rw [show demoA.position - demoB.position = ((-10 : ℝ), (0 : ℝ)) from by
    show ((0, 0) : Vec) - (10, 0) = ((-10 : ℝ), (0 : ℝ))
    rw [vec_sub]; norm_num]
  rw [demo_dAB, normalize_axis_neg (by norm_num : (-10 : ℝ) < 0)]
  norm_num [vdiv, vec_smul, vec_add, normalize_axis_neg, vmag_axis_neg,
    limit_of_gt, vec_sub, Prod.mk.injEq]
  norm_num [demoA, limit_of_gt, vmag_axis_neg, normalize_axis_neg, vec_sub,
    Prod.mk.injEq]

theorem demo_aliA : demoA.alignment [demoA, demoB] 100 0 = (0, 0) := by
  rw [alignment_weight_smul, zero_smul]
  rfl

theorem demo_cohA : demoA.cohesion [demoA, demoB] 100 0 = (0, 0) := by
  rw [cohesion_weight_smul, zero_smul]
  rfl

theorem demo_sepB_seq : demoB.separation [demoA', demoB] 100 1 = (0, 0) := by
  unfold Boid.separation
  rw [demo_accB_seq]
  dsimp only
  rw [if_neg (lt_irrefl 0), one_smul]

theorem demo_aliB_seq : demoB.alignment [demoA', demoB] 100 0 = (0, 0) := by
  rw [alignment_weight_smul, zero_smul]
  rfl

theorem demo_cohB_seq : demoB.cohesion [demoA', demoB] 100 0 = (0, 0) := by
  rw [cohesion_weight_smul, zero_smul]
  rfl

theorem demo_sepB_two : demoB.separation [demoA, demoB] 100 1 = (0.2, 0) := by
  unfold Boid.separation
  rw [demo_accB_two]
  rw [show demoB.position - demoA.position = ((10 : ℝ), (0 : ℝ)) from by
    show ((10, 0) : Vec) - (0, 0) = ((10 : ℝ), (0 : ℝ))
    rw [vec_sub]; norm_num]
  rw [demo_dBA, normalize_axis_pos (by norm_num : (0 : ℝ) < 10)]
  norm_num [vdiv, vec_smul, vec_add, normalize_axis_pos, vmag_axis_nonneg,
    limit_of_gt, vec_sub, Prod.mk.injEq]
  norm_num [demoB, limit_of_gt, vmag_axis_nonneg, normalize_axis_pos, vec_sub,
    Prod.mk.injEq]

theorem demo_aliB_two : demoB.alignment [demoA, demoB] 100 0 = (0, 0) := by
  rw [alignment_weight_smul, zero_smul]
  rfl

theorem demo_cohB_two : demoB.cohesion [demoA, demoB] 100 0 = (0, 0) := by
  rw [cohesion_weight_smul, zero_smul]
  rfl

theorem demo_stepA : demoSim.stepBoid [demoA, demoB] demoA = demoA' := by
  show ((((demoA.applyForce
      (demoA.separation [demoA, demoB] 100 1)).applyForce
      (demoA.alignment [demoA, demoB] 100 0)).applyForce
      (demoA.cohesion [demoA, demoB] 100 0)).update).wrapAround 800 800 = demoA'
  rw [demo_sepA, demo_aliA, demo_cohA]
  have hchain : ((demoA.applyForce ((-0.2 : ℝ), (0 : ℝ))).applyForce
      ((0 : ℝ), (0 : ℝ))).applyForce ((0 : ℝ), (0 : ℝ))
      = { demoA with acceleration := ((-0.2 : ℝ), (0 : ℝ)) } := by
    show ({ demoA with acceleration :=
        ((demoA.acceleration + (-0.2, 0)) + (0, 0)) + (0, 0) } : Boid) = _
    exact congrArg (fun v : Vec => { demoA with acceleration := v }) (by
      show ((((0 : ℝ), (0 : ℝ)) + (-0.2, 0)) + (0, 0)) + (0, 0)
          = ((-0.2 : ℝ), (0 : ℝ))
      rw [vec_add, vec_add, vec_add]
      norm_num)
  rw [hchain]
  have h1 : limit ((-0.2 : ℝ), (0 : ℝ)) 0.2 = ((-0.2 : ℝ), (0 : ℝ)) :=
    limit_of_not_gt (by
      rw [vmag_axis_neg (by norm_num : (-0.2 : ℝ) < 0)]
      norm_num)
  have h2 : (((0 : ℝ), (0 : ℝ)) : Vec) + (-0.2, 0) = ((-0.2 : ℝ), (0 : ℝ)) := by
    rw [vec_add]
    norm_num
  have h3 : limit ((-0.2 : ℝ), (0 : ℝ)) 4 = ((-0.2 : ℝ), (0 : ℝ)) :=
    limit_of_not_gt (by
      rw [vmag_axis_neg (by norm_num : (-0.2 : ℝ) < 0)]
      norm_num)
  have hupd : ({ demoA with acceleration := ((-0.2 : ℝ), (0 : ℝ)) } : Boid).update
      = { demoA with
          position := ((-0.2 : ℝ), (0 : ℝ)),
          velocity := ((-0.2 : ℝ), (0 : ℝ)),
          acceleration := ((0 : ℝ), (0 : ℝ)) } := by
    show ({ demoA with
        velocity := limit (((0 : ℝ), (0 : ℝ)) + limit ((-0.2 : ℝ), (0 : ℝ)) 0.2) 4,
        position := ((0 : ℝ), (0 : ℝ))
          + limit (((0 : ℝ), (0 : ℝ)) + limit ((-0.2 : ℝ), (0 : ℝ)) 0.2) 4,
        acceleration := ((0 : ℝ), (0 : ℝ)) } : Boid) = _
    rw [h1, h2, h3, h2]
  rw [hupd]
  unfold Boid.wrapAround
  norm_num [demoA, demoA']

theorem demo_stepB_seq : demoSim.stepBoid [demoA', demoB] demoB = demoB := by
  show ((((demoB.applyForce
      (demoB.separation [demoA', demoB] 100 1)).applyForce
      (demoB.alignment [demoA', demoB] 100 0)).applyForce
      (demoB.cohesion [demoA', demoB] 100 0)).update).wrapAround 800 800 = demoB
  rw [demo_sepB_seq, demo_aliB_seq, demo_cohB_seq]
  have hchain : ((demoB.applyForce ((0 : ℝ), (0 : ℝ))).applyForce
      ((0 : ℝ), (0 : ℝ))).applyForce ((0 : ℝ), (0 : ℝ))
      = { demoB with acceleration := ((0 : ℝ), (0 : ℝ)) } := by
    show ({ demoB with acceleration :=
        ((demoB.acceleration + (0, 0)) + (0, 0)) + (0, 0) } : Boid) = _
    exact congrArg (fun v : Vec => { demoB with acceleration := v }) (by
      show ((((0 : ℝ), (0 : ℝ)) + (0, 0)) + (0, 0)) + (0, 0)
          = ((0 : ℝ), (0 : ℝ))
      rw [vec_add, vec_add, vec_add]
      norm_num)
  rw [hchain]
  have h1 : limit ((0 : ℝ), (0 : ℝ)) 0.2 = ((0 : ℝ), (0 : ℝ)) :=
    limit_of_not_gt (by rw [vmag_zero]; norm_num)
  have h2 : (((0 : ℝ), (0 : ℝ)) : Vec) + (0, 0) = ((0 : ℝ), (0 : ℝ)) := by
    rw [vec_add]
    norm_num
  have h3 : limit ((0 : ℝ), (0 : ℝ)) 4 = ((0 : ℝ), (0 : ℝ)) :=
    limit_of_not_gt (by rw [vmag_zero]; norm_num)
  have h4 : (((10 : ℝ), (0 : ℝ)) : Vec) + (0, 0) = ((10 : ℝ), (0 : ℝ)) := by
    rw [vec_add]
    norm_num
  have hupd : ({ demoB with acceleration := ((0 : ℝ), (0 : ℝ)) } : Boid).update
      = { demoB with
          position := ((10 : ℝ), (0 : ℝ)),
          velocity := ((0 : ℝ), (0 : ℝ)),
          acceleration := ((0 : ℝ), (0 : ℝ)) } := by
    show ({ demoB with
        velocity := limit (((0 : ℝ), (0 : ℝ)) + limit ((0 : ℝ), (0 : ℝ)) 0.2) 4,
        position := ((10 : ℝ), (0 : ℝ))
          + limit (((0 : ℝ), (0 : ℝ)) + limit ((0 : ℝ), (0 : ℝ)) 0.2) 4,
        acceleration := ((0 : ℝ), (0 : ℝ)) } : Boid) = _
    rw [h1, h2, h3, h4]
  rw [hupd]
  unfold Boid.wrapAround
  norm_num [demoB]

theorem demo_stepB_two : demoSim.stepBoid [demoA, demoB] demoB = demoB2 := by
  show ((((demoB.applyForce
      (demoB.separation [demoA, demoB] 100 1)).applyForce
      (demoB.alignment [demoA, demoB] 100 0)).applyForce
      (demoB.cohesion [demoA, demoB] 100 0)).update).wrapAround 800 800 = demoB2
  rw [demo_sepB_two, demo_aliB_two, demo_cohB_two]
  have hchain : ((demoB.applyForce ((0.2 : ℝ), (0 : ℝ))).applyForce
      ((0 : ℝ), (0 : ℝ))).applyForce ((0 : ℝ), (0 : ℝ))
      = { demoB with acceleration := ((0.2 : ℝ), (0 : ℝ)) } := by
    show ({ demoB with acceleration :=
        ((demoB.acceleration + (0.2, 0)) + (0, 0)) + (0, 0) } : Boid) = _
    exact congrArg (fun v : Vec => { demoB with acceleration := v }) (by
      show ((((0 : ℝ), (0 : ℝ)) + (0.2, 0)) + (0, 0)) + (0, 0)
          = ((0.2 : ℝ), (0 : ℝ))
      rw [vec_add, vec_add, vec_add]
      norm_num)
  rw [hchain]
  have h1 : limit ((0.2 : ℝ), (0 : ℝ)) 0.2 = ((0.2 : ℝ), (0 : ℝ)) :=
    limit_of_not_gt (by
      rw [vmag_axis_nonneg (by norm_num : (0 : ℝ) ≤ 0.2)]
      norm_num)
  have h2 : (((0 : ℝ), (0 : ℝ)) : Vec) + (0.2, 0) = ((0.2 : ℝ), (0 : ℝ)) := by
    rw [vec_add]
    norm_num
  have h3 : limit ((0.2 : ℝ), (0 : ℝ)) 4 = ((0.2 : ℝ), (0 : ℝ)) :=
    limit_of_not_gt (by
      rw [vmag_axis_nonneg (by norm_num : (0 : ℝ) ≤ 0.2)]
      norm_num)
  have h4 : (((10 : ℝ), (0 : ℝ)) : Vec) + (0.2, 0) = ((10.2 : ℝ), (0 : ℝ)) := by
    rw [vec_add]
    norm_num
  have hupd : ({ demoB with acceleration := ((0.2 : ℝ), (0 : ℝ)) } : Boid).update
      = { demoB with
          position := ((10.2 : ℝ), (0 : ℝ)),
          velocity := ((0.2 : ℝ), (0 : ℝ)),
          acceleration := ((0 : ℝ), (0 : ℝ)) } := by
    show ({ demoB with
        velocity := limit (((0 : ℝ), (0 : ℝ)) + limit ((0.2 : ℝ), (0 : ℝ)) 0.2) 4,
        position := ((10 : ℝ), (0 : ℝ))
          + limit (((0 : ℝ), (0 : ℝ)) + limit ((0.2 : ℝ), (0 : ℝ)) 0.2) 4,
        acceleration := ((0 : ℝ), (0 : ℝ)) } : Boid) = _
    rw [h1, h2, h3, h4]
  rw [hupd]
  unfold Boid.wrapAround
  norm_num [demoB, demoB2]

theorem updateAux_succ (s : Simulation) (boids : List Boid) (i n : ℕ) :
    s.updateAux boids i (n + 1)
      = match boids[i]? with
        | none => boids
        | some b => s.updateAux (boids.set i (s.stepBoid boids b)) (i + 1) n :=
  rfl

theorem demo_update_boids : (demoSim.update).boids = [demoA', demoB] := by
  show demoSim.updateAux [demoA, demoB] 0 (1 + 1) = [demoA', demoB]
  rw [updateAux_succ]
  show demoSim.updateAux
    ([demoA, demoB].set 0 (demoSim.stepBoid [demoA, demoB] demoA)) 1 (0 + 1)
      = [demoA', demoB]
  rw [demo_stepA]
  show demoSim.updateAux [demoA', demoB] 1 (0 + 1) = [demoA', demoB]
  rw [updateAux_succ]
  show demoSim.updateAux
    ([demoA', demoB].set 1 (demoSim.stepBoid [demoA', demoB] demoB)) 2 0
      = [demoA', demoB]
  rw [demo_stepB_seq]
  rfl

theorem demo_twoPass_boids :
    (demoSim.updateTwoPass).boids = [demoA', demoB2] := by
  show [demoSim.stepBoid [demoA, demoB] demoA,
    demoSim.stepBoid [demoA, demoB] demoB] = [demoA', demoB2]
  rw [demo_stepA, demo_stepB_two]

/-- C2. Simulation.update is the sequential in-insertion-order per-agent
pass, not the compute-all-forces-then-apply-all two-pass design: on the
two-agent demo the sequential pass leaves the second agent untouched
(the first agent wrapped out of its perception radius before the second
agent's forces were computed from the current, mutated collection),
whereas the two-pass semantics — whose forces all read the start-of-tick
collection — pushes the second agent to the right; the first processed
agent agrees under both, and the two results differ. -/
theorem sequential_update_not_two_pass :
    (demoSim.update).boids = [demoA', demoB] ∧
      (demoSim.updateTwoPass).boids = [demoA', demoB2] ∧
        (demoSim.update).boids.head? = (demoSim.updateTwoPass).boids.head? ∧
          demoSim.update ≠ demoSim.updateTwoPass := by
  refine ⟨demo_update_boids, demo_twoPass_boids, ?_, ?_⟩
  · rw [demo_update_boids, demo_twoPass_boids]
    rfl
  · intro hEq
    have hb := congrArg Simulation.boids hEq
    rw [demo_update_boids, demo_twoPass_boids] at hb
    have htl : ([demoB] : List Boid) = [demoB2] :=
      ((List.cons.injEq _ _ _ _).mp hb).2
    have hBB : demoB = demoB2 := ((List.cons.injEq _ _ _ _).mp htl).1
    have hp := congrArg (fun b : Boid => b.position.1) hBB
    have hx : (10 : ℝ) = 10.2 := by simpa [demoB, demoB2] using hp
    norm_num at hx

end Boids
